import Mathlib

/-!
Verification development for the `qwen3_tts_cuda.py` TTS sidecar: a shallow
embedding of the JSON command loop (`main`), the `Qwen3TTS` synthesis engine
state and its handlers, the placeholder tone generator, the speed transform
(`_adjust_speed`), the WAV container writer (`_to_wav_bytes`, which delegates
to the Python `wave` module, modelled here byte for byte), and base64 encoding
of the audio payload.

Modelling conventions:
- Python floats are modelled as exact rationals (`ℚ`); `np.sin` and `np.pi`
  are transcendental, so they are carried as parameters `sinQ : ℚ → ℚ` and
  `piQ : ℚ` — every theorem below holds for all values of these parameters,
  in particular for the true sine and pi.
- Calls into external libraries (`torch`, `qwen_tts`) are modelled by an
  `Ext` record giving the outcome of each external call; handlers are
  `Except`-valued, an `Except.error` being a raised Python exception.
- JSON values are abstracted to typed optional fields; bytes are `Nat`
  (each < 256), and the base64 payload is its list of ASCII code points.
-/

namespace TTSSidecar

/-- Two's-complement low 16 bits of an int16 sample, as numpy `tobytes`
serialises it on a little-endian platform. -/
def u16 (s : Int) : Nat := (s % 65536).toNat

/-- PCM body of the WAV file: each int16 sample as two little-endian bytes. -/
def pcmBytes : List Int → List Nat
  | [] => []
  | s :: rest => u16 s % 256 :: u16 s / 256 :: pcmBytes rest

/-- Little-endian value of a byte list. -/
def leVal (bs : List Nat) : Nat := bs.foldr (fun b acc => b + 256 * acc) 0

/-- The 44-byte RIFF/WAVE header the Python `wave` module writes for a mono
16-bit file with `n` samples at rate `rate`, four bytes per row below:
"RIFF"; chunk size (little-endian, as every multi-byte field here); "WAVE";
"fmt "; fmt-subchunk size 16; format 1 (PCM) and 1 channel; frame rate;
byte rate (rate * channels * sample width); block align 2 and 16 bits per
sample; "data"; data size. -/
def wavHeader (n rate : Nat) : List Nat :=
  let sz := 36 + 2 * n
  let br := rate * 1 * 2
  let dl := 2 * n
  [82, 73, 70, 70,
   sz % 256, sz / 256 % 256, sz / 65536 % 256, sz / 16777216 % 256,
   87, 65, 86, 69,
   102, 109, 116, 32,
   16, 0, 0, 0,
   1, 0, 1, 0,
   rate % 256, rate / 256 % 256, rate / 65536 % 256, rate / 16777216 % 256,
   br % 256, br / 256 % 256, br / 65536 % 256, br / 16777216 % 256,
   2, 0, 16, 0,
   100, 97, 116, 97,
   dl % 256, dl / 256 % 256, dl / 65536 % 256, dl / 16777216 % 256]

/-- Bytes of the WAV container `Qwen3TTS._to_wav_bytes` produces via the
`wave` module: header then little-endian int16 frames. -/
def toWavBytes (audio : List Int) (rate : Nat) : List Nat :=
  wavHeader audio.length rate ++ pcmBytes audio

/-- The `wave` module raises `wave.Error` on a nonpositive frame rate and
`struct.error` when a 32-bit header field overflows; `_to_wav_bytes`
propagates those exceptions. -/
def to_wav_bytes (audio : List Int) (rate : Nat) : Except String (List Nat) :=
  if rate = 0 then .error "bad frame rate"
  else if rate < 4294967296 ∧ 36 + 2 * audio.length < 4294967296 then
    .ok (toWavBytes audio rate)
  else .error "argument out of range"

/-- Channel count field of a WAV byte string (offset 22, 16-bit LE). -/
def wavNChannels (bs : List Nat) : Nat := leVal ((bs.drop 22).take 2)

/-- Sample width in bytes of a WAV byte string (bits-per-sample field at
offset 34, divided by 8, as `wave.getsampwidth` reports). -/
def wavSampWidth (bs : List Nat) : Nat := leVal ((bs.drop 34).take 2) / 8

/-- Frame rate field of a WAV byte string (offset 24, 32-bit LE). -/
def wavFrameRate (bs : List Nat) : Nat := leVal ((bs.drop 24).take 4)

/-- Structural well-formedness of a single-channel 16-bit PCM WAV byte
string: the four magic tags, consistent chunk sizes, PCM format tag, and the
mono/16-bit geometry fields. -/
def wavValid (bs : List Nat) : Prop :=
  bs.take 4 = [82, 73, 70, 70] ∧
  (bs.drop 8).take 4 = [87, 65, 86, 69] ∧
  (bs.drop 12).take 4 = [102, 109, 116, 32] ∧
  (bs.drop 36).take 4 = [100, 97, 116, 97] ∧
  leVal ((bs.drop 16).take 4) = 16 ∧
  leVal ((bs.drop 20).take 2) = 1 ∧
  leVal ((bs.drop 4).take 4) + 8 = bs.length ∧
  leVal ((bs.drop 40).take 4) + 44 = bs.length ∧
  leVal ((bs.drop 32).take 2) = 2

instance (bs : List Nat) : Decidable (wavValid bs) := by
  unfold wavValid; infer_instance

/-- ASCII code of the base64 alphabet character for a 6-bit value. -/
def sextetToChar (n : Nat) : Nat :=
  if n < 26 then 65 + n
  else if n < 52 then 97 + (n - 26)
  else if n < 62 then 48 + (n - 52)
  else if n = 62 then 43
  else 47

/-- 6-bit value of a base64 alphabet character (ASCII code). -/
def charToSextet (c : Nat) : Nat :=
  if 65 ≤ c ∧ c ≤ 90 then c - 65
  else if 97 ≤ c ∧ c ≤ 122 then c - 97 + 26
  else if 48 ≤ c ∧ c ≤ 57 then c - 48 + 52
  else if c = 43 then 62
  else if c = 47 then 63
  else 0

/-- Standard base64 encoding (`base64.b64encode`) of a byte list, as the
list of ASCII codes of the encoded text; 61 is the pad character. -/
def b64encode : List Nat → List Nat
  | [] => []
  | [a] => [sextetToChar (a / 4), sextetToChar (a % 4 * 16), 61, 61]
  | [a, b] => [sextetToChar (a / 4), sextetToChar (a % 4 * 16 + b / 16),
               sextetToChar (b % 16 * 4), 61]
  | a :: b :: c :: rest =>
      sextetToChar (a / 4) :: sextetToChar (a % 4 * 16 + b / 16) ::
      sextetToChar (b % 16 * 4 + c / 64) :: sextetToChar (c % 64) ::
      b64encode rest

/-- Standard base64 decoding of an ASCII code list back to bytes; `none` on
a malformed encoding. -/
def b64decode : List Nat → Option (List Nat)
  | [] => some []
  | c1 :: c2 :: c3 :: c4 :: rest =>
      if c3 = 61 ∧ c4 = 61 ∧ rest = [] then
        some [charToSextet c1 * 4 + charToSextet c2 / 16]
      else if c4 = 61 ∧ rest = [] then
        some [charToSextet c1 * 4 + charToSextet c2 / 16,
              charToSextet c2 % 16 * 16 + charToSextet c3 / 4]
      else
        (b64decode rest).map (fun bs =>
          (charToSextet c1 * 4 + charToSextet c2 / 16) ::
          (charToSextet c2 % 16 * 16 + charToSextet c3 / 4) ::
          (charToSextet c3 % 4 * 64 + charToSextet c4) :: bs)
  | _ => none

/-- Python `int()` of a float: truncation toward zero, on our rational
model of floats. -/
def ratTrunc (q : ℚ) : Int := if 0 ≤ q then q.floor else q.ceil

/-- Model of `np.linspace(a, b, n)` with the default inclusive endpoint:
`n` evenly spaced rationals from `a` to `b`. -/
def linspaceQ (a b : ℚ) (n : Nat) : List ℚ :=
  if n = 0 then []
  else if n = 1 then [a]
  else (List.range n).map (fun i : ℕ => a + (b - a) * (i : ℚ) / ((n : ℚ) - 1))

/-- Value of `np.interp(x, np.arange(len fp), fp)` at one query point:
clamped at the ends, linear between integer sample points. -/
def interpAt (x : ℚ) (fp : List ℚ) : ℚ :=
  if x ≤ 0 then fp.headD 0
  else if ((fp.length : ℚ) - 1) ≤ x then fp.getLastD 0
  else
    let i := (ratTrunc x).toNat
    fp.getD i 0 + (x - (i : ℚ)) * (fp.getD (i + 1) 0 - fp.getD i 0)

/-- Model of `np.interp(xs, np.arange(len fp), fp)`. -/
def npInterp (xs : List ℚ) (fp : List ℚ) : List ℚ :=
  xs.map (fun x => interpAt x fp)

/-- Embedding of `Qwen3TTS._adjust_speed`: identity at speed 1, otherwise
resample to `int(len(audio) / speed)` points with `np.linspace` and
`np.interp`. Division by a zero speed, a negative sample count, and
interpolation over an empty sample array raise, modelled as errors. -/
def adjust_speed (audio : List ℚ) (speed : ℚ) : Except String (List ℚ) :=
  if speed = 1 then .ok audio
  else if speed = 0 then .error "float division by zero"
  else
    let newLength := ratTrunc ((audio.length : ℚ) / speed)
    if newLength < 0 then .error "Number of samples must be non-negative"
    else if audio.length = 0 then .error "array of sample points is empty"
    else .ok (npInterp (linspaceQ 0 ((audio.length : ℚ) - 1) newLength.toNat) audio)

/-- Embedding of the placeholder branch of `Qwen3TTS.generate` (no model
loaded): `duration = len(text) * 0.05`, `t = np.linspace(0, duration,
int(24000 * duration))`, `audio = np.sin(2 * np.pi * 440 * t) * 0.3`,
quantised to int16 by `(audio * 32767).astype(np.int16)`. `sinQ` and `piQ`
stand for `np.sin` and `np.pi` (their true values keep every sample inside
the int16 range, so the cast is plain truncation). -/
def placeholderTone (sinQ : ℚ → ℚ) (piQ : ℚ) (textLen : Nat) : List Int :=
  let duration : ℚ := (textLen : ℚ) * (5 / 100)
  let n : Nat := (ratTrunc (24000 * duration)).toNat
  (linspaceQ 0 duration n).map
    (fun t => ratTrunc (sinQ (2 * piQ * 440 * t) * (3 / 10) * 32767))

/-- Synthesis engine state of the `Qwen3TTS` class: whether a model handle
is loaded, the selected device, the sample rate, and the selected speaker
(`self.speaker` is only assigned by `init_model`). -/
structure Qwen3TTS where
  model : Bool
  device : Option String
  sample_rate : Nat
  speaker : Option String
deriving DecidableEq

/-- State `Qwen3TTS.__init__` constructs. -/
def initTTS : Qwen3TTS :=
  { model := false, device := none, sample_rate := 24000, speaker := none }

instance {ε α : Type} [DecidableEq ε] [DecidableEq α] : DecidableEq (Except ε α) :=
  fun x y =>
    match x, y with
    | .ok a, .ok b =>
        if h : a = b then .isTrue (by rw [h]) else .isFalse (by simp [h])
    | .error a, .error b =>
        if h : a = b then .isTrue (by rw [h]) else .isFalse (by simp [h])
    | .ok _, .error _ => .isFalse (by simp)
    | .error _, .ok _ => .isFalse (by simp)

/-- Outcomes of the external library calls a single request can make:
the device string `torch` reports, the result of loading the model with
`qwen_tts`, and the result of `model.generate_custom_voice` (the first
waveform as floats, and its sample rate). -/
structure Ext where
  device : String
  init : Except String Unit
  gen : Except String (List ℚ × Nat)
deriving DecidableEq

/-- Embedding of `Qwen3TTS.init_model`: record the detected device, then
load the model; on success also select speaker "Ryan" and sample rate
12000. Any exception is re-raised as a RuntimeError whose message is
prefixed, with the device assignment already performed. -/
def init_model (tts : Qwen3TTS) (ext : Ext) : Except String String × Qwen3TTS :=
  let tts1 := { tts with device := some ext.device }
  match ext.init with
  | .ok _ =>
      (.ok ext.device,
       { tts1 with model := true, speaker := some "Ryan", sample_rate := 12000 })
  | .error e => (.error ("Failed to initialize model: " ++ e), tts1)

/-- Embedding of `Qwen3TTS.generate`: placeholder tone when no model is
loaded; otherwise call the library, optionally resample for speed, clip to
the unit range, quantise to int16, and wrap as WAV bytes. Every exception
is re-raised with the "Generation failed" prefix. The `temperature`
argument is accepted but never used, exactly as in the source. -/
def generate (sinQ : ℚ → ℚ) (piQ : ℚ) (tts : Qwen3TTS) (ext : Ext)
    (text : String) (speed : ℚ) (temperature : ℚ) :
    Except String (List Nat × Nat) :=
  if tts.model = false then
    match to_wav_bytes (placeholderTone sinQ piQ text.length) 24000 with
    | .ok bs => .ok (bs, 24000)
    | .error e => .error ("Generation failed: " ++ e)
  else
    match ext.gen with
    | .error e => .error ("Generation failed: " ++ e)
    | .ok (wavs, sr) =>
        match (if speed ≠ 1 then adjust_speed wavs speed else .ok wavs) with
        | .error e => .error ("Generation failed: " ++ e)
        | .ok audio =>
            let samples := audio.map
              (fun q => ratTrunc (max (-1) (min 1 q) * 32767))
            match to_wav_bytes samples sr with
            | .ok bs => .ok (bs, sr)
            | .error e => .error ("Generation failed: " ++ e)

/-- Embedding of `Qwen3TTS.warmup`: raise when no model is loaded,
otherwise run one throwaway generation of "Hello." at speed 1; failures
are re-raised with the "Warmup failed" prefix. -/
def warmup (sinQ : ℚ → ℚ) (piQ : ℚ) (tts : Qwen3TTS) (ext : Ext) :
    Except String Unit :=
  if tts.model = false then .error "Warmup failed: Model not initialized"
  else
    match generate sinQ piQ tts ext "Hello." 1 (1 / 10) with
    | .ok _ => .ok ()
    | .error e => .error ("Warmup failed: " ++ e)

/-- A parsed request mapping. Fields model `cmd.get(...)`: `none` is an
absent key, and the defaults of `main` (`""`, `1.0`, `0.1`) are applied at
the call sites exactly as in the source. -/
structure Request where
  action : Option String
  text : Option String
  speed : Option ℚ
  temperature : Option ℚ
deriving DecidableEq

/-- The value of the `cmd` local of `main` after a successful
`json.loads`: either a mapping or some other JSON value (on which
`cmd.get` raises `AttributeError`). -/
inductive PyCmd where
  | dict (r : Request)
  | nondict
deriving DecidableEq

/-- One line read from standard input: a line `json.loads` rejects
(carrying the exception message), a valid JSON line that is not a mapping,
or a mapping. -/
inductive InLine where
  | bad (msg : String)
  | nondict
  | req (r : Request)
deriving DecidableEq

/-- One JSON response line of `main`; absent fields are `none`. The
`audio` field holds the ASCII codes of the base64 text. -/
structure Response where
  status : String
  action : Option String := none
  device : Option String := none
  model_loaded : Option Bool := none
  audio : Option (List Nat) := none
  sample_rate : Option Nat := none
  error : Option String := none
deriving DecidableEq

/-- State of `main` between iterations: the engine and the `cmd` local,
which persists across loop iterations (it is consulted by the `except`
block of a later iteration whose `json.loads` failed). -/
structure LoopState where
  tts : Qwen3TTS
  prevCmd : Option PyCmd
deriving DecidableEq

/-- State when the command loop starts. -/
def initState : LoopState := { tts := initTTS, prevCmd := none }

/-- How one iteration ends: fall through to the next line, `break` out of
the loop (shutdown), or abort with an exception escaping the `except`
block (which kills `main` and the process). -/
inductive Outcome where
  | next
  | stop
  | crash
deriving DecidableEq

/-- The action name the `except` block of `main` reports for a line that
failed before `cmd` was assigned: `cmd.get("action", "unknown") if 'cmd'
in locals() else "unknown"`, evaluated on the previous iteration's `cmd`. -/
def prevAction (st : LoopState) : String :=
  match st.prevCmd with
  | some (.dict r) => r.action.getD "unknown"
  | _ => "unknown"

/-- One iteration of the command loop of `main` on one input line:
the emitted responses, the successor state, and how the iteration ended. -/
def step (sinQ : ℚ → ℚ) (piQ : ℚ) (st : LoopState) (l : InLine) (ext : Ext) :
    List Response × LoopState × Outcome :=
  match l with
  | .bad msg =>
      match st.prevCmd with
      | some .nondict => ([], st, .crash)
      | _ => ([{ status := "error", action := some (prevAction st),
                 error := some msg }], st, .next)
  | .nondict => ([], { st with prevCmd := some .nondict }, .crash)
  | .req r =>
      let st1 : LoopState := { st with prevCmd := some (.dict r) }
      if r.action = some "init" then
        match init_model st1.tts ext with
        | (.ok dev, tts1) =>
            ([{ status := "ok", action := some "init", device := some dev,
                model_loaded := some true }],
             { st1 with tts := tts1 }, .next)
        | (.error e, tts1) =>
            ([{ status := "error", action := some "init", error := some e }],
             { st1 with tts := tts1 }, .next)
      else if r.action = some "warmup" then
        match warmup sinQ piQ st1.tts ext with
        | .ok _ =>
            ([{ status := "ok", action := some "warmup" }], st1, .next)
        | .error e =>
            ([{ status := "error", action := some "warmup",
                error := some e }], st1, .next)
      else if r.action = some "generate" then
        match generate sinQ piQ st1.tts ext (r.text.getD "")
                (r.speed.getD 1) (r.temperature.getD (1 / 10)) with
        | .ok (bs, sr) =>
            ([{ status := "ok", action := some "generate",
                audio := some (b64encode bs), sample_rate := some sr }],
             st1, .next)
        | .error e =>
            ([{ status := "error", action := some "generate",
                error := some e }], st1, .next)
      else if r.action = some "ping" then
        ([{ status := "ok", action := some "ping",
            model_loaded := some st1.tts.model }], st1, .next)
      else if r.action = some "shutdown" then
        ([{ status := "ok", action := some "shutdown" }], st1, .stop)
      else
        ([{ status := "error", action := r.action,
            error := some ("Unknown action: " ++ r.action.getD "None") }],
         st1, .next)

/-- How a whole run of the command loop ended: end of input, `break` after
shutdown, or an uncaught exception. -/
inductive Final where
  | eof
  | stopped
  | crashed
deriving DecidableEq

/-- The command loop of `main` over a list of input lines, each paired
with the outcomes of the external calls its handling may make: all emitted
responses in order, the final state, and how the loop ended. -/
def runLoop (sinQ : ℚ → ℚ) (piQ : ℚ) :
    LoopState → List (InLine × Ext) → List Response × LoopState × Final
  | st, [] => ([], st, .eof)
  | st, (l, e) :: rest =>
      match step sinQ piQ st l e with
      | (rs, st1, .next) =>
          let (rs2, st2, f) := runLoop sinQ piQ st1 rest
          (rs ++ rs2, st2, f)
      | (rs, st1, .stop) => (rs, st1, .stopped)
      | (rs, st1, .crash) => (rs, st1, .crashed)

/-- No response with action "shutdown" is followed by any further
response. -/
def noMoreAfterShutdown : List Response → Prop
  | [] => True
  | r :: rest => (r.action = some "shutdown" → rest = []) ∧ noMoreAfterShutdown rest

/-- Loop-state invariant: the recorded `cmd` of the previous iteration,
if any, is a mapping whose action is not "shutdown" (a shutdown line ends
the loop, and a non-mapping line crashes it). -/
def GoodState (st : LoopState) : Prop :=
  ∀ r, st.prevCmd = some (.dict r) → r.action ≠ some "shutdown"

/-- Concrete stand-in for `np.sin` used by closed witness statements. -/
def sinQ0 : ℚ → ℚ := fun _ => 0

/-- Concrete external-call outcomes used by closed witness statements. -/
def ext0 : Ext := { device := "cpu", init := .ok (), gen := .error "boom" }

/-- Concrete `{"action": "ping"}` request. -/
def pingReq : Request :=
  { action := some "ping", text := none, speed := none, temperature := none }

/-- Concrete `{"action": "shutdown"}` request. -/
def shutdownReq : Request :=
  { action := some "shutdown", text := none, speed := none, temperature := none }

/-- Concrete `{"action": "warmup"}` request. -/
def warmupReq : Request :=
  { action := some "warmup", text := none, speed := none, temperature := none }

/-- Concrete `{"action": "init"}` request. -/
def initReq : Request :=
  { action := some "init", text := none, speed := none, temperature := none }

/-- Concrete `{"action": "generate", ...}` request with the given optional
fields. -/
def genReq (t : Option String) (sp tp : Option ℚ) : Request :=
  { action := some "generate", text := t, speed := sp, temperature := tp }

/-- The success response `main` emits for a generate request whose text
defaulted to the empty string in the placeholder path: a zero-sample WAV
container, base64-encoded. -/
def emptyWavResp : Response :=
  { status := "ok", action := some "generate",
    audio := some (b64encode (toWavBytes [] 24000)), sample_rate := some 24000 }

/-! ### Helper lemmas: base64 -/

theorem charToSextet_sextetToChar : ∀ n, n < 64 → charToSextet (sextetToChar n) = n := by
  decide

theorem sextetToChar_ne_61 (n : Nat) : sextetToChar n ≠ 61 := by
  unfold sextetToChar
  repeat' split
  all_goals omega

theorem b64decode_b64encode (bs : List Nat) (h : ∀ b ∈ bs, b < 256) :
    b64decode (b64encode bs) = some bs := by
  induction bs using b64encode.induct with
  | case1 => rfl
  | case2 a =>
    have ha : a < 256 := h a (by simp)
    simp only [b64encode, b64decode, and_self, if_true]
    rw [charToSextet_sextetToChar _ (by omega), charToSextet_sextetToChar _ (by omega)]
    simp only [Option.some.injEq, List.cons.injEq, and_true]
    omega
  | case3 a b =>
    have ha : a < 256 := h a (by simp)
    have hb : b < 256 := h b (by simp)
    simp only [b64encode, b64decode, sextetToChar_ne_61, false_and, if_false, and_self,
      if_true]
    rw [charToSextet_sextetToChar _ (by omega), charToSextet_sextetToChar _ (by omega),
        charToSextet_sextetToChar _ (by omega)]
    simp only [Option.some.injEq, List.cons.injEq, and_true]
    exact ⟨by omega, by omega⟩
  | case4 a b c rest ih =>
    have ha : a < 256 := h a (by simp)
    have hb : b < 256 := h b (by simp)
    have hc : c < 256 := h c (by simp)
    have hrest : ∀ x ∈ rest, x < 256 := fun x hx => h x (by simp [hx])
    simp only [b64encode, b64decode, sextetToChar_ne_61, false_and, if_false,
      ih hrest, Option.map_some']
    rw [charToSextet_sextetToChar _ (by omega), charToSextet_sextetToChar _ (by omega),
        charToSextet_sextetToChar _ (by omega), charToSextet_sextetToChar _ (by omega)]
    simp only [Option.some.injEq, List.cons.injEq, and_true]
    exact ⟨by omega, by omega, by omega⟩

/-! ### Helper lemmas: the WAV container -/

theorem u16_lt (s : Int) : u16 s < 65536 := by
  unfold u16
  omega

theorem pcmBytes_length (a : List Int) : (pcmBytes a).length = 2 * a.length := by
  induction a with
  | nil => rfl
  | cons s rest ih => simp only [pcmBytes, List.length_cons, ih]; omega

theorem pcmBytes_lt (a : List Int) : ∀ b ∈ pcmBytes a, b < 256 := by
  induction a with
  | nil => simp [pcmBytes]
  | cons s rest ih =>
    intro b hb
    have hu := u16_lt s
    rcases List.mem_cons.1 hb with rfl | hb2
    · omega
    · rcases List.mem_cons.1 hb2 with rfl | hb3
      · omega
      · exact ih b hb3

theorem wavHeader_length (n r : Nat) : (wavHeader n r).length = 44 := rfl

theorem toWavBytes_length (a : List Int) (r : Nat) :
    (toWavBytes a r).length = 44 + 2 * a.length := by
  unfold toWavBytes
  rw [List.length_append, wavHeader_length, pcmBytes_length]

theorem toWavBytes_lt (a : List Int) (r : Nat) : ∀ b ∈ toWavBytes a r, b < 256 := by
  intro b hb
  rcases List.mem_append.1 hb with hh | hp
  · simp only [wavHeader, List.mem_cons, List.not_mem_nil, or_false] at hh
    omega
  · exact pcmBytes_lt a b hp

theorem wavNChannels_toWavBytes (a : List Int) (r : Nat) :
    wavNChannels (toWavBytes a r) = 1 := rfl

theorem wavSampWidth_toWavBytes (a : List Int) (r : Nat) :
    wavSampWidth (toWavBytes a r) = 2 := by
  have h : wavSampWidth (toWavBytes a r) = 16 / 8 := rfl
  rw [h]

theorem wavFrameRate_toWavBytes (a : List Int) (r : Nat) (h : r < 4294967296) :
    wavFrameRate (toWavBytes a r) = r := by
  have h1 : wavFrameRate (toWavBytes a r) =
      r % 256 + 256 * (r / 256 % 256 + 256 * (r / 65536 % 256 +
        256 * (r / 16777216 % 256 + 256 * 0))) := rfl
  rw [h1]
  omega

theorem wavValid_toWavBytes (a : List Int) (r : Nat)
    (hlen : 36 + 2 * a.length < 4294967296) :
    wavValid (toWavBytes a r) := by
  have hl := toWavBytes_length a r
  refine ⟨rfl, rfl, rfl, rfl, rfl, rfl, ?_, ?_, rfl⟩
  · have h1 : leVal (((toWavBytes a r).drop 4).take 4) =
        (36 + 2 * a.length) % 256 + 256 * ((36 + 2 * a.length) / 256 % 256 +
          256 * ((36 + 2 * a.length) / 65536 % 256 +
            256 * ((36 + 2 * a.length) / 16777216 % 256 + 256 * 0))) := rfl
    rw [h1, hl]
    omega
  · have h1 : leVal (((toWavBytes a r).drop 40).take 4) =
        (2 * a.length) % 256 + 256 * ((2 * a.length) / 256 % 256 +
          256 * ((2 * a.length) / 65536 % 256 +
            256 * ((2 * a.length) / 16777216 % 256 + 256 * 0))) := rfl
    rw [h1, hl]
    omega

/-- Everything C7 needs about one successful `_to_wav_bytes` result: the
base64 payload decodes back to the bytes, and those bytes are a valid mono
16-bit WAV at the requested frame rate. -/
theorem to_wav_bytes_ok (a : List Int) (r : Nat) (bs : List Nat)
    (h : to_wav_bytes a r = .ok bs) :
    b64decode (b64encode bs) = some bs ∧ wavValid bs ∧
    wavNChannels bs = 1 ∧ wavSampWidth bs = 2 ∧ wavFrameRate bs = r := by
  unfold to_wav_bytes at h
  split at h
  · exact absurd h (by simp)
  · split at h
    · rename_i hr0 hrange
      have hbs : bs = toWavBytes a r := by
        cases h
        rfl
      subst hbs
      exact ⟨b64decode_b64encode _ (toWavBytes_lt a r),
        wavValid_toWavBytes a r hrange.2,
        wavNChannels_toWavBytes a r, wavSampWidth_toWavBytes a r,
        wavFrameRate_toWavBytes a r hrange.1⟩
    · exact absurd h (by simp)

/-! ### Helper lemmas: rationals, linspace, speed transform -/

theorem ratFloor_eq (q : ℚ) : q.floor = ⌊q⌋ := by
  rw [Rat.floor_def', Rat.floor_def]

theorem ratTrunc_nonneg_eq (q : ℚ) (h : 0 ≤ q) : ratTrunc q = ⌊q⌋ := by
  unfold ratTrunc
  rw [if_pos h, ratFloor_eq]

theorem ratTrunc_natCast (n : ℕ) : ratTrunc (n : ℚ) = n := by
  rw [ratTrunc_nonneg_eq _ (by positivity), Int.floor_natCast]

theorem linspaceQ_length (a b : ℚ) (n : Nat) : (linspaceQ a b n).length = n := by
  unfold linspaceQ
  split
  · rename_i h
    simp [h]
  · split
    · rename_i h
      simp [h]
    · simp only [List.length_map, List.length_range]

theorem placeholderTone_length (sinQ : ℚ → ℚ) (piQ : ℚ) (L : Nat) :
    (placeholderTone sinQ piQ L).length = 1200 * L := by
  unfold placeholderTone
  rw [List.length_map, linspaceQ_length]
  have h : (24000 : ℚ) * ((L : ℚ) * (5 / 100)) = ((1200 * L : ℕ) : ℚ) := by
    push_cast
    ring
  rw [h, ratTrunc_natCast]
  omega

theorem npInterp_length (xs fp : List ℚ) : (npInterp xs fp).length = xs.length := by
  unfold npInterp
  rw [List.length_map]

theorem adjust_speed_pos (audio : List ℚ) (speed : ℚ) (hs : 0 < speed)
    (hne : audio ≠ []) :
    ∃ out, adjust_speed audio speed = .ok out ∧
      out.length = (⌊(audio.length : ℚ) / speed⌋).toNat := by
  by_cases h1 : speed = 1
  · subst h1
    refine ⟨audio, by unfold adjust_speed; simp, ?_⟩
    rw [div_one, Int.floor_natCast]
    simp
  · have h0 : speed ≠ 0 := by positivity
    have hfl : ratTrunc ((audio.length : ℚ) / speed) = ⌊(audio.length : ℚ) / speed⌋ :=
      ratTrunc_nonneg_eq _ (by positivity)
    have hnonneg : ¬ (ratTrunc ((audio.length : ℚ) / speed) < 0) := by
      rw [hfl]
      simp only [not_lt]
      exact Int.floor_nonneg.2 (by positivity)
    have hlen : audio.length ≠ 0 := fun h => hne (List.length_eq_zero.1 h)
    refine ⟨npInterp (linspaceQ 0 ((audio.length : ℚ) - 1)
        (ratTrunc ((audio.length : ℚ) / speed)).toNat) audio, ?_, ?_⟩
    · unfold adjust_speed
      rw [if_neg h1, if_neg h0, if_neg hnonneg, if_neg hlen]
    · rw [npInterp_length, linspaceQ_length, hfl]

theorem two_floor_half (n : ℕ) : (⌊(n : ℚ) / 2⌋).toNat = n / 2 := by
  have h : ((n : ℕ) : ℚ) / 2 = ((n : ℤ) : ℚ) / ((2 : ℕ) : ℚ) := by push_cast; ring
  rw [h, Rat.floor_intCast_div_natCast]
  omega


/-! ### Helper lemmas: one loop iteration per action -/

theorem step_init (sinQ : ℚ → ℚ) (piQ : ℚ) (st : LoopState) (ext : Ext) (r : Request)
    (h : r.action = some "init") :
    step sinQ piQ st (.req r) ext =
      (match init_model st.tts ext with
       | (.ok dev, tts1) =>
           ([{ status := "ok", action := some "init", device := some dev,
               model_loaded := some true }],
            { tts := tts1, prevCmd := some (.dict r) }, .next)
       | (.error e, tts1) =>
           ([{ status := "error", action := some "init", error := some e }],
            { tts := tts1, prevCmd := some (.dict r) }, .next)) := by
  simp only [step, h]
  rw [if_true]

theorem step_warmup (sinQ : ℚ → ℚ) (piQ : ℚ) (st : LoopState) (ext : Ext) (r : Request)
    (h : r.action = some "warmup") :
    step sinQ piQ st (.req r) ext =
      (match warmup sinQ piQ st.tts ext with
       | .ok _ =>
           ([{ status := "ok", action := some "warmup" }],
            { st with prevCmd := some (.dict r) }, .next)
       | .error e =>
           ([{ status := "error", action := some "warmup", error := some e }],
            { st with prevCmd := some (.dict r) }, .next)) := by
  simp only [step, h]
  rw [if_neg (by decide), if_true]

theorem step_generate (sinQ : ℚ → ℚ) (piQ : ℚ) (st : LoopState) (ext : Ext) (r : Request)
    (h : r.action = some "generate") :
    step sinQ piQ st (.req r) ext =
      (match generate sinQ piQ st.tts ext (r.text.getD "") (r.speed.getD 1)
          (r.temperature.getD (1 / 10)) with
       | .ok (bs, sr) =>
           ([{ status := "ok", action := some "generate",
               audio := some (b64encode bs), sample_rate := some sr }],
            { st with prevCmd := some (.dict r) }, .next)
       | .error e =>
           ([{ status := "error", action := some "generate", error := some e }],
            { st with prevCmd := some (.dict r) }, .next)) := by
  simp only [step, h]
  rw [if_neg (by decide), if_neg (by decide), if_true]

theorem step_ping (sinQ : ℚ → ℚ) (piQ : ℚ) (st : LoopState) (ext : Ext) (r : Request)
    (h : r.action = some "ping") :
    step sinQ piQ st (.req r) ext =
      ([{ status := "ok", action := some "ping", model_loaded := some st.tts.model }],
       { st with prevCmd := some (.dict r) }, .next) := by
  simp only [step, h]
  rw [if_neg (by decide), if_neg (by decide), if_neg (by decide), if_true]

theorem step_shutdown (sinQ : ℚ → ℚ) (piQ : ℚ) (st : LoopState) (ext : Ext) (r : Request)
    (h : r.action = some "shutdown") :
    step sinQ piQ st (.req r) ext =
      ([{ status := "ok", action := some "shutdown" }],
       { st with prevCmd := some (.dict r) }, .stop) := by
  simp only [step, h]
  rw [if_neg (by decide), if_neg (by decide), if_neg (by decide), if_neg (by decide),
    if_true]

theorem step_other (sinQ : ℚ → ℚ) (piQ : ℚ) (st : LoopState) (ext : Ext) (r : Request)
    (h1 : r.action ≠ some "init") (h2 : r.action ≠ some "warmup")
    (h3 : r.action ≠ some "generate") (h4 : r.action ≠ some "ping")
    (h5 : r.action ≠ some "shutdown") :
    step sinQ piQ st (.req r) ext =
      ([{ status := "error", action := r.action,
          error := some ("Unknown action: " ++ r.action.getD "None") }],
       { st with prevCmd := some (.dict r) }, .next) := by
  simp only [step]
  rw [if_neg h1, if_neg h2, if_neg h3, if_neg h4, if_neg h5]


/-! ### Claim theorems -/

/-- C1, counterexample: the claim says every unparseable line is answered
with action "unknown". Running the loop on a parsed ping line followed by
an unparseable line answers the unparseable line with exactly one error
response, but its action field echoes the stale `cmd` of the previous
iteration ("ping"), not "unknown". -/
theorem c1_counterexample :
    (runLoop sinQ0 0 initState
      [(.req pingReq, ext0),
       (.bad "Expecting value: line 1 column 1 (char 0)", ext0)]).1 =
    [{ status := "ok", action := some "ping", model_loaded := some false },
     { status := "error", action := some "ping",
       error := some "Expecting value: line 1 column 1 (char 0)" }] ∧
    some "ping" ≠ some "unknown" := by
  constructor
  · decide
  · decide

/-- C1 (amended): for every input line that is not valid JSON, the loop
emits exactly one error response with status "error" and continues
reading; its action field is "unknown" when no earlier line parsed as a
mapping, and otherwise echoes the action of the most recently parsed
command (defaulting to "unknown" when that command had no action). The
hypothesis excludes the state after a valid non-mapping JSON line, which
has already crashed the loop. -/
theorem c1_amended (sinQ : ℚ → ℚ) (piQ : ℚ) (st : LoopState) (ext : Ext) (msg : String)
    (h : st.prevCmd ≠ some .nondict) :
    step sinQ piQ st (.bad msg) ext =
      ([{ status := "error", action := some (prevAction st), error := some msg }],
       st, .next) := by
  rcases hp : st.prevCmd with _ | (r | _)
  · simp [step, prevAction, hp]
  · simp [step, prevAction, hp]
  · exact absurd hp h

/-- C1, witness: the amended claim applied at the initial state, where the
reported action is "unknown". -/
theorem c1_witness :
    initState.prevCmd ≠ some .nondict ∧
    step sinQ0 0 initState (.bad "bad line") ext0 =
      ([{ status := "error", action := some (prevAction initState),
          error := some "bad line" }], initState, .next) :=
  ⟨by decide, c1_amended sinQ0 0 initState ext0 "bad line" (by decide)⟩

/-- C9: the synthesis engine state is mutated only by init — handling any
line that is not an init request (generate, warmup, ping, shutdown,
unknown actions, and unparseable or non-mapping lines alike) leaves every
field of the engine state equal to its value before the request. -/
theorem c9_engine_state_only_init (sinQ : ℚ → ℚ) (piQ : ℚ) (st : LoopState)
    (l : InLine) (ext : Ext)
    (h : ∀ r, l = .req r → r.action ≠ some "init") :
    ((step sinQ piQ st l ext).2.1).tts = st.tts := by
  cases l with
  | bad msg =>
    simp only [step]
    split <;> rfl
  | nondict => rfl
  | req r =>
    simp only [step]
    repeat' split
    all_goals first
      | rfl
      | exact absurd (by assumption) (h r rfl)

/-- C9, witness: a ping request at the initial state leaves the engine
state unchanged. -/
theorem c9_witness :
    (∀ r, InLine.req pingReq = InLine.req r → r.action ≠ some "init") ∧
    ((step sinQ0 0 initState (.req pingReq) ext0).2.1).tts = initState.tts := by
  refine ⟨?_, ?_⟩
  · intro r hr
    injection hr with h2
    subst h2
    decide
  · exact c9_engine_state_only_init sinQ0 0 initState _ ext0
      (by intro r hr; injection hr with h2; subst h2; decide)

theorem generate_temperature (sinQ : ℚ → ℚ) (piQ : ℚ) (tts : Qwen3TTS) (ext : Ext)
    (text : String) (speed t1 t2 : ℚ) :
    generate sinQ piQ tts ext text speed t1 = generate sinQ piQ tts ext text speed t2 := rfl

/-- C10: the generate handler ignores the temperature field — two generate
requests identical except for temperature, handled in the same state,
produce exactly the same responses, the same engine state, and the same
loop outcome (the request is recorded in the `cmd` local, which is the
only difference). -/
theorem c10_temperature_noninterference (sinQ : ℚ → ℚ) (piQ : ℚ) (st : LoopState)
    (ext : Ext) (r : Request) (t1 t2 : Option ℚ) (h : r.action = some "generate") :
    (step sinQ piQ st (.req { r with temperature := t1 }) ext).1 =
      (step sinQ piQ st (.req { r with temperature := t2 }) ext).1 ∧
    ((step sinQ piQ st (.req { r with temperature := t1 }) ext).2.1).tts =
      ((step sinQ piQ st (.req { r with temperature := t2 }) ext).2.1).tts ∧
    (step sinQ piQ st (.req { r with temperature := t1 }) ext).2.2 =
      (step sinQ piQ st (.req { r with temperature := t2 }) ext).2.2 := by
  rw [step_generate sinQ piQ st ext { r with temperature := t1 } h,
      step_generate sinQ piQ st ext { r with temperature := t2 } h]
  rw [generate_temperature sinQ piQ st.tts ext (r.text.getD "") (r.speed.getD 1)
      (t1.getD (1 / 10)) (t2.getD (1 / 10))]
  rcases hg : generate sinQ piQ st.tts ext (r.text.getD "") (r.speed.getD 1)
      (t2.getD (1 / 10)) with e | ⟨bs, sr⟩ <;> simp

theorem c10_witness :
    (genReq (some "hi") none (some 0)).action = some "generate" ∧
    (step sinQ0 0 initState (.req { genReq (some "hi") none (some 0) with
        temperature := some 0 }) ext0).1 =
      (step sinQ0 0 initState (.req { genReq (some "hi") none (some 0) with
        temperature := some 1 }) ext0).1 :=
  ⟨rfl, (c10_temperature_noninterference sinQ0 0 initState ext0
      (genReq (some "hi") none (some 0)) (some 0) (some 1) rfl).1⟩

/-- C4: at process start no model is loaded; every ping request is
answered with exactly one ok response reporting precisely the current
model-loaded flag, leaves the engine state unchanged, and continues the
loop; and a successful init sets the model-loaded flag, so a ping before
any init reports false and a ping after a successful init reports true. -/
theorem c4_ping_reports_model (sinQ : ℚ → ℚ) (piQ : ℚ) :
    initState.tts.model = false ∧
    (∀ st ext r, r.action = some "ping" →
      (step sinQ piQ st (.req r) ext).1 =
        [{ status := "ok", action := some "ping",
           model_loaded := some st.tts.model }] ∧
      ((step sinQ piQ st (.req r) ext).2.1).tts = st.tts ∧
      (step sinQ piQ st (.req r) ext).2.2 = .next) ∧
    (∀ st ext r, r.action = some "init" → ext.init = .ok () →
      ((step sinQ piQ st (.req r) ext).2.1).tts.model = true) := by
  refine ⟨rfl, ?_, ?_⟩
  · intro st ext r h
    rw [step_ping sinQ piQ st ext r h]
    exact ⟨rfl, rfl, rfl⟩
  · intro st ext r h hok
    rw [step_init sinQ piQ st ext r h]
    simp [init_model, hok]

theorem c4_witness :
    pingReq.action = some "ping" ∧
    (step sinQ0 0 initState (.req pingReq) ext0).1 =
      [{ status := "ok", action := some "ping",
         model_loaded := some initState.tts.model }] :=
  ⟨rfl, ((c4_ping_reports_model sinQ0 0).2.1 initState ext0 pingReq rfl).1⟩

/-- C2: for every request whose action is one of the five recognized
actions, the loop emits exactly one response, and whenever that response
has status "error" (that is, whenever the handler raised), it carries the
request action itself and an error message string, and the loop continues
to the next line. -/
theorem c2_handler_errors (sinQ : ℚ → ℚ) (piQ : ℚ) (st : LoopState) (ext : Ext)
    (r : Request) (a : String) (h : r.action = some a)
    (ha : a ∈ (["init", "warmup", "generate", "ping", "shutdown"] : List String)) :
    (step sinQ piQ st (.req r) ext).1.length = 1 ∧
    (∀ resp ∈ (step sinQ piQ st (.req r) ext).1,
      resp.status = "error" →
        resp.action = some a ∧ resp.error ≠ none ∧
        (step sinQ piQ st (.req r) ext).2.2 = .next) := by
  simp only [List.mem_cons, List.mem_singleton, List.not_mem_nil, or_false] at ha
  rcases ha with rfl | rfl | rfl | rfl | rfl
  · rw [step_init sinQ piQ st ext r h]
    rcases hm : init_model st.tts ext with ⟨dev | e, tts1⟩ <;> simp
  · rw [step_warmup sinQ piQ st ext r h]
    rcases hm : warmup sinQ piQ st.tts ext with e | u <;> simp
  · rw [step_generate sinQ piQ st ext r h]
    rcases hm : generate sinQ piQ st.tts ext (r.text.getD "") (r.speed.getD 1)
        (r.temperature.getD (1 / 10)) with e | ⟨bs, sr⟩ <;> simp
  · rw [step_ping sinQ piQ st ext r h]
    simp
  · rw [step_shutdown sinQ piQ st ext r h]
    simp

theorem c2_witness :
    warmupReq.action = some "warmup" ∧
    "warmup" ∈ (["init", "warmup", "generate", "ping", "shutdown"] : List String) ∧
    (step sinQ0 0 initState (.req warmupReq) ext0).1 =
      [{ status := "error", action := some "warmup",
         error := some "Warmup failed: Model not initialized" }] ∧
    (step sinQ0 0 initState (.req warmupReq) ext0).1.length = 1 ∧
    (∀ resp ∈ (step sinQ0 0 initState (.req warmupReq) ext0).1,
      resp.status = "error" →
        resp.action = some "warmup" ∧ resp.error ≠ none ∧
        (step sinQ0 0 initState (.req warmupReq) ext0).2.2 = .next) := by
  refine ⟨rfl, by decide, by decide, ?_, ?_⟩
  · exact (c2_handler_errors sinQ0 0 initState ext0 warmupReq "warmup" rfl
      (by decide)).1
  · exact (c2_handler_errors sinQ0 0 initState ext0 warmupReq "warmup" rfl
      (by decide)).2


theorem goodState_prevAction (st : LoopState) (hg : GoodState st) :
    prevAction st ≠ "shutdown" := by
  rcases hp : st.prevCmd with _ | (r | _)
  · simp only [prevAction, hp]
    decide
  · simp only [prevAction, hp]
    rcases hr : r.action with _ | x
    · simp only [Option.getD_none]
      decide
    · simp only [Option.getD_some]
      intro heq
      exact hg r hp (by rw [hr, heq])
  · simp only [prevAction, hp]
    decide

theorem goodState_init : GoodState initState := by
  intro r hp
  simp [initState] at hp

theorem step_cases (sinQ : ℚ → ℚ) (piQ : ℚ) (st : LoopState) (l : InLine) (ext : Ext)
    (hg : GoodState st) :
    ((step sinQ piQ st l ext).2.2 = .next →
       (∀ x ∈ (step sinQ piQ st l ext).1, x.action ≠ some "shutdown") ∧
       GoodState (step sinQ piQ st l ext).2.1) ∧
    ((step sinQ piQ st l ext).2.2 = .stop →
       (step sinQ piQ st l ext).1 = [{ status := "ok", action := some "shutdown" }]) ∧
    ((step sinQ piQ st l ext).2.2 = .crash → (step sinQ piQ st l ext).1 = []) := by
  cases l with
  | bad msg =>
    rcases hp : st.prevCmd with _ | (r | _)
    · simp only [step, hp]
      refine ⟨fun _ => ⟨?_, hg⟩, fun h => by simp at h, fun h => by simp at h⟩
      intro x hx
      rcases List.mem_singleton.1 hx with rfl
      have := goodState_prevAction st hg
      simp only [ne_eq, Option.some.injEq]
      exact this
    · simp only [step, hp]
      refine ⟨fun _ => ⟨?_, hg⟩, fun h => by simp at h, fun h => by simp at h⟩
      intro x hx
      rcases List.mem_singleton.1 hx with rfl
      have := goodState_prevAction st hg
      simp only [ne_eq, Option.some.injEq]
      exact this
    · simp only [step, hp]
      exact ⟨fun h => by simp at h, fun h => by simp at h, fun _ => by trivial⟩
  | nondict =>
    exact ⟨fun h => by simp [step] at h, fun h => by simp [step] at h, fun _ => by trivial⟩
  | req r =>
    have hgood : r.action ≠ some "shutdown" →
        GoodState { st with prevCmd := some (.dict r) } := by
      intro hne r' hp'
      injection hp' with hp2
      injection hp2 with hp3
      rw [← hp3]
      exact hne
    by_cases h1 : r.action = some "init"
    · rw [step_init sinQ piQ st ext r h1]
      rcases hm : init_model st.tts ext with ⟨dev | e, tts1⟩
      · refine ⟨fun _ => ⟨?_, ?_⟩, fun h => by simp at h, fun h => by simp at h⟩
        · intro x hx
          rcases List.mem_singleton.1 hx with rfl
          simp
        · intro r' hp'
          injection hp' with hp2
          injection hp2 with hp3
          rw [← hp3, h1]
          decide
      · refine ⟨fun _ => ⟨?_, ?_⟩, fun h => by simp at h, fun h => by simp at h⟩
        · intro x hx
          rcases List.mem_singleton.1 hx with rfl
          simp
        · intro r' hp'
          injection hp' with hp2
          injection hp2 with hp3
          rw [← hp3, h1]
          decide
    · by_cases h2 : r.action = some "warmup"
      · rw [step_warmup sinQ piQ st ext r h2]
        rcases hm : warmup sinQ piQ st.tts ext with e | u
        · refine ⟨fun _ => ⟨?_, hgood (by rw [h2]; decide)⟩,
            fun h => by simp at h, fun h => by simp at h⟩
          intro x hx
          rcases List.mem_singleton.1 hx with rfl
          simp
        · refine ⟨fun _ => ⟨?_, hgood (by rw [h2]; decide)⟩,
            fun h => by simp at h, fun h => by simp at h⟩
          intro x hx
          rcases List.mem_singleton.1 hx with rfl
          simp
      · by_cases h3 : r.action = some "generate"
        · rw [step_generate sinQ piQ st ext r h3]
          rcases hm : generate sinQ piQ st.tts ext (r.text.getD "") (r.speed.getD 1)
              (r.temperature.getD (1 / 10)) with e | ⟨bs, sr⟩
          · refine ⟨fun _ => ⟨?_, hgood (by rw [h3]; decide)⟩,
              fun h => by simp at h, fun h => by simp at h⟩
            intro x hx
            rcases List.mem_singleton.1 hx with rfl
            simp
          · refine ⟨fun _ => ⟨?_, hgood (by rw [h3]; decide)⟩,
              fun h => by simp at h, fun h => by simp at h⟩
            intro x hx
            rcases List.mem_singleton.1 hx with rfl
            simp
        · by_cases h4 : r.action = some "ping"
          · rw [step_ping sinQ piQ st ext r h4]
            refine ⟨fun _ => ⟨?_, hgood (by rw [h4]; decide)⟩,
              fun h => by simp at h, fun h => by simp at h⟩
            intro x hx
            rcases List.mem_singleton.1 hx with rfl
            simp
          · by_cases h5 : r.action = some "shutdown"
            · rw [step_shutdown sinQ piQ st ext r h5]
              exact ⟨fun h => by simp at h, fun _ => rfl, fun h => by simp at h⟩
            · rw [step_other sinQ piQ st ext r h1 h2 h3 h4 h5]
              refine ⟨fun _ => ⟨?_, hgood h5⟩,
                fun h => by simp at h, fun h => by simp at h⟩
              intro x hx
              rcases List.mem_singleton.1 hx with rfl
              simp only [ne_eq]
              exact h5


theorem noMoreAfterShutdown_append (rs t : List Response)
    (h : ∀ x ∈ rs, x.action ≠ some "shutdown") (ht : noMoreAfterShutdown t) :
    noMoreAfterShutdown (rs ++ t) := by
  induction rs with
  | nil => exact ht
  | cons r rest ih =>
    refine ⟨fun heq => absurd heq (h r (List.mem_cons_self r rest)), ?_⟩
    exact ih (fun x hx => h x (List.mem_cons_of_mem r hx))

theorem runLoop_noMoreAfterShutdown (sinQ : ℚ → ℚ) (piQ : ℚ)
    (lines : List (InLine × Ext)) (st : LoopState) (hg : GoodState st) :
    noMoreAfterShutdown (runLoop sinQ piQ st lines).1 := by
  induction lines generalizing st with
  | nil => trivial
  | cons le rest ih =>
    obtain ⟨l, e⟩ := le
    have hc := step_cases sinQ piQ st l e hg
    rcases hstep : step sinQ piQ st l e with ⟨rs, st1, oc⟩
    rw [hstep] at hc
    dsimp only at hc
    cases oc with
    | next =>
      obtain ⟨hns, hg1⟩ := hc.1 rfl
      rcases hr : runLoop sinQ piQ st1 rest with ⟨rs2, st2, f⟩
      have ht : noMoreAfterShutdown rs2 := by
        have := ih st1 hg1
        rw [hr] at this
        exact this
      simp only [runLoop, hstep, hr]
      exact noMoreAfterShutdown_append rs rs2 hns ht
    | stop =>
      simp only [runLoop, hstep]
      rw [hc.2.1 rfl]
      exact ⟨fun _ => rfl, trivial⟩
    | crash =>
      simp only [runLoop, hstep]
      rw [hc.2.2 rfl]
      trivial

/-- C3: a shutdown request is answered with exactly one ok confirmation
response and stops the loop; no other request stops the loop (a valid
non-mapping JSON line crashes the process with an uncaught exception, but
that is not an action, and EOF simply ends the input); and in any run of
the loop from the initial state, a response with action "shutdown" is
never followed by another response. -/
theorem c3_shutdown_semantics (sinQ : ℚ → ℚ) (piQ : ℚ) :
    (∀ st ext r, r.action = some "shutdown" →
      step sinQ piQ st (.req r) ext =
        ([{ status := "ok", action := some "shutdown" }],
         { st with prevCmd := some (.dict r) }, .stop)) ∧
    (∀ st l ext, (step sinQ piQ st l ext).2.2 = .stop →
      ∃ r, l = .req r ∧ r.action = some "shutdown") ∧
    (∀ lines, noMoreAfterShutdown (runLoop sinQ piQ initState lines).1) := by
  refine ⟨step_shutdown sinQ piQ, ?_, ?_⟩
  · intro st l ext hstop
    cases l with
    | bad msg =>
      rcases hp : st.prevCmd with _ | (r | _) <;> simp [step, hp] at hstop
    | nondict => simp [step] at hstop
    | req r =>
      refine ⟨r, rfl, ?_⟩
      by_cases h5 : r.action = some "shutdown"
      · exact h5
      · exfalso
        by_cases h1 : r.action = some "init"
        · rw [step_init sinQ piQ st ext r h1] at hstop
          rcases hm : init_model st.tts ext with ⟨res, tts1⟩
          rw [hm] at hstop
          rcases res with d | e2 <;> simp at hstop
        · by_cases h2 : r.action = some "warmup"
          · rw [step_warmup sinQ piQ st ext r h2] at hstop
            rcases hm : warmup sinQ piQ st.tts ext with e2 | u
            all_goals rw [hm] at hstop
            all_goals simp at hstop
          · by_cases h3 : r.action = some "generate"
            · rw [step_generate sinQ piQ st ext r h3] at hstop
              rcases hm : generate sinQ piQ st.tts ext (r.text.getD "")
                  (r.speed.getD 1) (r.temperature.getD (1 / 10)) with e2 | ⟨bs, sr⟩
              all_goals rw [hm] at hstop
              all_goals simp at hstop
            · by_cases h4 : r.action = some "ping"
              · rw [step_ping sinQ piQ st ext r h4] at hstop
                simp at hstop
              · rw [step_other sinQ piQ st ext r h1 h2 h3 h4 h5] at hstop
                simp at hstop
  · intro lines
    exact runLoop_noMoreAfterShutdown sinQ piQ lines initState goodState_init

theorem c3_witness :
    shutdownReq.action = some "shutdown" ∧
    step sinQ0 0 initState (.req shutdownReq) ext0 =
      ([{ status := "ok", action := some "shutdown" }],
       { initState with prevCmd := some (.dict shutdownReq) }, .stop) :=
  ⟨rfl, (c3_shutdown_semantics sinQ0 0).1 initState ext0 shutdownReq rfl⟩


theorem generate_no_model (sinQ : ℚ → ℚ) (piQ : ℚ) (tts : Qwen3TTS) (ext : Ext)
    (text : String) (speed temp : ℚ) (hm : tts.model = false)
    (hlen : text.length ≤ 1000000) :
    generate sinQ piQ tts ext text speed temp =
      .ok (toWavBytes (placeholderTone sinQ piQ text.length) 24000, 24000) := by
  have hlt : (placeholderTone sinQ piQ text.length).length = 1200 * text.length :=
    placeholderTone_length sinQ piQ text.length
  have hw : to_wav_bytes (placeholderTone sinQ piQ text.length) 24000 =
      .ok (toWavBytes (placeholderTone sinQ piQ text.length) 24000) := by
    unfold to_wav_bytes
    rw [if_neg (by decide), if_pos ⟨by decide, by rw [hlt]; omega⟩]
  unfold generate
  rw [hm, if_pos rfl, hw]

/-- C5: a generate request handled with no model loaded succeeds with a
payload that is exactly the base64-encoded WAV container of the
deterministic 440 Hz placeholder tone at sample rate 24000, whose sample
count is 1200 per character of text (50 ms per character at 24000 Hz); and
any two generate requests with the same text, in the same state, produce
identical responses. The size bound keeps the data chunk inside the WAV
32-bit size fields, where the `wave` module would otherwise raise. -/
theorem c5_placeholder_generate (sinQ : ℚ → ℚ) (piQ : ℚ) (st : LoopState)
    (ext : Ext) (r : Request) (hm : st.tts.model = false)
    (h : r.action = some "generate") (hlen : (r.text.getD "").length ≤ 1000000) :
    (step sinQ piQ st (.req r) ext).1 =
      [{ status := "ok", action := some "generate",
         audio := some (b64encode (toWavBytes
           (placeholderTone sinQ piQ (r.text.getD "").length) 24000)),
         sample_rate := some 24000 }] ∧
    (placeholderTone sinQ piQ (r.text.getD "").length).length =
      1200 * (r.text.getD "").length ∧
    (∀ r2 : Request, r2.action = some "generate" →
      r2.text.getD "" = r.text.getD "" →
      (step sinQ piQ st (.req r2) ext).1 = (step sinQ piQ st (.req r) ext).1) := by
  have hstep : (step sinQ piQ st (.req r) ext).1 =
      [{ status := "ok", action := some "generate",
         audio := some (b64encode (toWavBytes
           (placeholderTone sinQ piQ (r.text.getD "").length) 24000)),
         sample_rate := some 24000 }] := by
    rw [step_generate sinQ piQ st ext r h,
        generate_no_model sinQ piQ st.tts ext (r.text.getD "") (r.speed.getD 1)
          (r.temperature.getD (1 / 10)) hm hlen]
  refine ⟨hstep, placeholderTone_length sinQ piQ (r.text.getD "").length, ?_⟩
  intro r2 h2 htext
  rw [hstep, step_generate sinQ piQ st ext r2 h2,
      generate_no_model sinQ piQ st.tts ext (r2.text.getD "") (r2.speed.getD 1)
        (r2.temperature.getD (1 / 10)) hm (by rw [htext]; exact hlen), htext]

set_option maxRecDepth 10000 in
unseal Rat.mul Rat.add Rat.sub Rat.inv in
theorem c5_witness :
    initState.tts.model = false ∧
    (genReq (some "a") none none).action = some "generate" ∧
    ((genReq (some "a") none none).text.getD "").length ≤ 1000000 ∧
    (step sinQ0 0 initState (.req (genReq (some "a") none none)) ext0).1 =
      [{ status := "ok", action := some "generate",
         audio := some (b64encode (toWavBytes
           (placeholderTone sinQ0 0
             (((genReq (some "a") none none).text.getD "").length)) 24000)),
         sample_rate := some 24000 }] :=
  ⟨rfl, rfl, by decide,
   (c5_placeholder_generate sinQ0 0 initState ext0 (genReq (some "a") none none)
      rfl rfl (by decide)).1⟩


/-- C6: the speed transform `_adjust_speed` leaves the sample count
unchanged at speed 1.0 (it returns the array itself), halves it at speed
2.0 on any nonempty waveform (`n` becomes `n / 2` rounding down), and in
general maps a nonempty array of length `n` to one of length
`floor(n / speed)` for every positive speed. -/
theorem c6_speed_transform :
    (∀ audio : List ℚ, adjust_speed audio 1 = .ok audio) ∧
    (∀ audio : List ℚ, audio ≠ [] →
      ∃ out, adjust_speed audio 2 = .ok out ∧ out.length = audio.length / 2) ∧
    (∀ (audio : List ℚ) (speed : ℚ), 0 < speed → audio ≠ [] →
      ∃ out, adjust_speed audio speed = .ok out ∧
        out.length = (⌊(audio.length : ℚ) / speed⌋).toNat) := by
  refine ⟨?_, ?_, ?_⟩
  · intro audio
    simp [adjust_speed]
  · intro audio hne
    obtain ⟨out, hok, hlen⟩ := adjust_speed_pos audio 2 (by norm_num) hne
    exact ⟨out, hok, by rw [hlen, two_floor_half]⟩
  · intro audio speed hs hne
    exact adjust_speed_pos audio speed hs hne

unseal Rat.mul Rat.add Rat.sub Rat.inv in
theorem c6_witness :
    ([0, 0, 0] : List ℚ) ≠ [] ∧
    ∃ out, adjust_speed ([0, 0, 0] : List ℚ) 2 = .ok out ∧
      out.length = ([0, 0, 0] : List ℚ).length / 2 :=
  ⟨by decide, c6_speed_transform.2.1 [0, 0, 0] (by decide)⟩

theorem generate_ok_wav (sinQ : ℚ → ℚ) (piQ : ℚ) (tts : Qwen3TTS) (ext : Ext)
    (text : String) (speed temp : ℚ) (bs : List Nat) (sr : Nat)
    (h : generate sinQ piQ tts ext text speed temp = .ok (bs, sr)) :
    ∃ audio, to_wav_bytes audio sr = .ok bs := by
  unfold generate at h
  split at h
  · split at h
    · rename_i hw
      simp only [Except.ok.injEq, Prod.mk.injEq] at h
      obtain ⟨rfl, rfl⟩ := h
      exact ⟨_, hw⟩
    · exact absurd h (by simp)
  · split at h
    · exact absurd h (by simp)
    · split at h
      · exact absurd h (by simp)
      · dsimp only at h
        split at h
        · rename_i hw
          simp only [Except.ok.injEq, Prod.mk.injEq] at h
          obtain ⟨rfl, rfl⟩ := h
          exact ⟨_, hw⟩
        · exact absurd h (by simp)

/-- C7: every success response to a generate request carries a base64
audio payload that decodes back to the exact WAV byte string, and that
byte string is a structurally valid RIFF/WAVE file with 1 channel, a
2-byte sample width, and a frame-rate field equal to the sample_rate field
of the same response. -/
theorem c7_wav_roundtrip (sinQ : ℚ → ℚ) (piQ : ℚ) (st : LoopState) (ext : Ext)
    (r : Request) (h : r.action = some "generate") (resp : Response)
    (hmem : resp ∈ (step sinQ piQ st (.req r) ext).1)
    (hok : resp.status = "ok") :
    ∃ wav, resp.audio = some (b64encode wav) ∧
      b64decode (b64encode wav) = some wav ∧ wavValid wav ∧
      wavNChannels wav = 1 ∧ wavSampWidth wav = 2 ∧
      some (wavFrameRate wav) = resp.sample_rate := by
  rw [step_generate sinQ piQ st ext r h] at hmem
  rcases hg : generate sinQ piQ st.tts ext (r.text.getD "") (r.speed.getD 1)
      (r.temperature.getD (1 / 10)) with e | ⟨bs, sr⟩
  · rw [hg] at hmem
    rcases List.mem_singleton.1 hmem with rfl
    exact absurd hok (by simp)
  · rw [hg] at hmem
    rcases List.mem_singleton.1 hmem with rfl
    obtain ⟨audio, hw⟩ := generate_ok_wav sinQ piQ st.tts ext (r.text.getD "")
      (r.speed.getD 1) (r.temperature.getD (1 / 10)) bs sr hg
    obtain ⟨hdec, hvalid, hch, hsw, hfr⟩ := to_wav_bytes_ok audio sr bs hw
    exact ⟨bs, rfl, hdec, hvalid, hch, hsw, by rw [hfr]⟩

set_option maxRecDepth 10000 in
unseal Rat.mul Rat.add Rat.sub Rat.inv in
theorem c7_witness :
    (genReq none none none).action = some "generate" ∧
    emptyWavResp ∈ (step sinQ0 0 initState (.req (genReq none none none)) ext0).1 ∧
    ∃ wav, emptyWavResp.audio = some (b64encode wav) ∧
      b64decode (b64encode wav) = some wav ∧ wavValid wav ∧
      wavNChannels wav = 1 ∧ wavSampWidth wav = 2 ∧
      some (wavFrameRate wav) = emptyWavResp.sample_rate :=
  ⟨rfl, by decide,
   c7_wav_roundtrip sinQ0 0 initState ext0 (genReq none none none) rfl
     emptyWavResp (by decide) rfl⟩

set_option maxRecDepth 10000 in
unseal Rat.mul Rat.add Rat.sub Rat.inv in
/-- C8, counterexample: the claim says generate requires the text field.
A generate request with no text field, handled at the initial state, is
answered with a normal success response — the placeholder synthesis of the
empty string (a zero-sample WAV payload) — not with an error. -/
theorem c8_counterexample :
    (genReq none none none).text = none ∧
    (step sinQ0 0 initState (.req (genReq none none none)) ext0).1 =
      [emptyWavResp] := by
  constructor
  · rfl
  · decide

/-- C8 (amended): generate does not require the text field — a generate
request without text is handled exactly like the same request with text
equal to the empty string (`cmd.get("text", "")`): same responses, same
engine state, same loop outcome. -/
theorem c8_amended (sinQ : ℚ → ℚ) (piQ : ℚ) (st : LoopState) (ext : Ext)
    (r : Request) (h : r.action = some "generate") (ht : r.text = none) :
    (step sinQ piQ st (.req r) ext).1 =
      (step sinQ piQ st (.req { r with text := some "" }) ext).1 ∧
    ((step sinQ piQ st (.req r) ext).2.1).tts =
      ((step sinQ piQ st (.req { r with text := some "" }) ext).2.1).tts ∧
    (step sinQ piQ st (.req r) ext).2.2 =
      (step sinQ piQ st (.req { r with text := some "" }) ext).2.2 := by
  rw [step_generate sinQ piQ st ext r h,
      step_generate sinQ piQ st ext { r with text := some "" } h]
  dsimp only
  rw [ht]
  simp only [Option.getD_none, Option.getD_some]
  rcases hg : generate sinQ piQ st.tts ext "" (r.speed.getD 1)
      (r.temperature.getD (1 / 10)) with e | ⟨bs, sr⟩ <;> simp

theorem c8_witness :
    (genReq none none none).action = some "generate" ∧
    (genReq none none none).text = none ∧
    (step sinQ0 0 initState (.req (genReq none none none)) ext0).1 =
      (step sinQ0 0 initState
        (.req { genReq none none none with text := some "" }) ext0).1 :=
  ⟨rfl, rfl,
   (c8_amended sinQ0 0 initState ext0 (genReq none none none) rfl rfl).1⟩


end TTSSidecar
